import Mathlib

/-!
Verification of the similarity ranking engine of the patent-examination
repository, `SimilarityCalculator` in `src/BigQuery/bigquery.py`.

Embedding conventions:
* a 1-D numpy array of floats is a `List ℝ` (floating point idealised as
  exact real arithmetic);
* `candidates_df` is a list of rows, each carrying its metadata columns
  (abstract, of type `α`) and the `embedding_v1` column; the pandas row index of
  row `i` is `i` (the frame comes from `to_dataframe`, a range index);
* numpy `ValueError` exceptions raised by shape mismatches are made explicit
  with `Except`;
* `DataFrame.nlargest(n, col)` with the default `keep` follows pandas
  SelectNSeries.compute: an empty frame for `n ≤ 0`; for `0 < n < len` the
  fast path, a partial selection finished by a stable mergesort argsort —
  the first `n` rows of the stable descending mergesort; for `n ≥ len` the
  slow path, `sort_values` descending with the default kind, which is not
  stable — the model takes that sort as a parameter constrained only by
  the two guarantees the library gives (`SortValuesDesc`): it returns some
  rearrangement of the rows that is non-increasing on the score column,
  with the order of tied rows implementation-defined.
-/

set_option maxHeartbeats 1000000

/-- np.dot of two 1-D vectors: the sum of pointwise products. -/
def dot (v w : List ℝ) : ℝ := (List.zipWith (fun a b => a * b) v w).sum

/-- np.linalg.norm of a 1-D vector: the square root of the sum of squares. -/
noncomputable def linalg_norm (v : List ℝ) : ℝ := Real.sqrt (dot v v)

/-- numpy broadcast division of a vector by a scalar. -/
noncomputable def vecDivScalar (v : List ℝ) (c : ℝ) : List ℝ := v.map (fun x => x / c)

/-- SimilarityCalculator.cosine_similarity: the dot product over the product
of the two norms, with an explicit guard returning the sentinel 0.0 when
either norm is zero. -/
noncomputable def cosine_similarity (vec1 vec2 : List ℝ) : ℝ :=
  let dot_product := dot vec1 vec2
  let norm_vec1 := linalg_norm vec1
  let norm_vec2 := linalg_norm vec2
  if norm_vec1 = 0 ∨ norm_vec2 = 0 then 0
  else dot_product / (norm_vec1 * norm_vec2)

/-- SimilarityCalculator.batch_cosine_similarity: normalise the target
vector and every candidate row by their norms (no zero-norm guard), then
take the matrix–vector product, i.e. the dot of every normalised row with
the normalised target. -/
noncomputable def batch_cosine_similarity (target_vec : List ℝ)
    (candidate_vecs : List (List ℝ)) : List ℝ :=
  let target_norm := vecDivScalar target_vec (linalg_norm target_vec)
  let candidate_norms := candidate_vecs.map (fun row => vecDivScalar row (linalg_norm row))
  candidate_norms.map (fun row => dot row target_norm)

/-! The `find_top_similar` pipeline.  A row of `candidates_df` is its abstract
metadata together with the `embedding_v1` column; a row of the returned
frame keeps the pandas index it had in `candidates_df` (position `i`, since
the frame has a range index), keeps the metadata, gains the
`similarity_score` column and drops `embedding_v1`. -/

structure CandidateRow (α : Type) where
  meta : α
  embedding_v1 : List ℝ

structure ResultRow (α : Type) where
  idx : ℕ
  meta : α
  similarity_score : ℝ

/-- numpy ValueError exceptions that `find_top_similar` can hit: building a
2-D array out of rows of unequal length, and a shape mismatch between that
array and the target vector in the matrix–vector product. -/
inductive NumpyError where
  | inhomogeneousShape
  | dotShapeMismatch

/-- np.array applied to a list of 1-D rows succeeds exactly when every row
has the length of the first one; otherwise it raises ValueError. -/
def sameLength (rows : List (List ℝ)) : Bool :=
  rows.all (fun r => r.length == (rows.headD []).length)

/-- Comparator used by pandas when ordering rows of `result_df` descending
by the `similarity_score` column: row `a` may precede row `b` when the
score of `a` is at least the score of `b`. -/
noncomputable def scoreDescLE {α : Type} (a b : ResultRow α) : Bool :=
  decide (b.similarity_score ≤ a.similarity_score)

/-- The guarantees pandas gives for the slow path of nlargest, namely
Series.sort_values(ascending=False) with the default kind: the result is a
rearrangement of the rows that is non-increasing on the score column.  The
default kind is not stable, so the order of rows with equal scores is
implementation-defined; any function with these two properties is a
conforming behavior of that sort. -/
def SortValuesDesc {α : Type} (sortValues : List (ResultRow α) → List (ResultRow α)) : Prop :=
  (∀ rows : List (ResultRow α), List.Perm (sortValues rows) rows) ∧
    (∀ rows : List (ResultRow α),
      (sortValues rows).Pairwise (fun a b => b.similarity_score ≤ a.similarity_score))

/-- DataFrame.nlargest(n, column) with the default keep, following pandas
SelectNSeries.compute: an empty frame for n ≤ 0; for 0 < n < len the fast
path, whose partial selection plus stable mergesort argsort returns the
first n rows of the stable descending mergesort; for n ≥ len the slow
path, sort_values descending with the default unstable kind — the
`sortValues` parameter — followed by head(n). -/
noncomputable def nlargest {α : Type} (sortValues : List (ResultRow α) → List (ResultRow α))
    (n : ℤ) (rows : List (ResultRow α)) : List (ResultRow α) :=
  if n ≤ 0 then []
  else if n < (rows.length : ℤ) then (rows.mergeSort scoreDescLE).take n.toNat
  else (sortValues rows).take n.toNat

/-- One conforming behavior of the slow-path sort: the stable descending
mergesort itself. -/
noncomputable def stableSortValues {α : Type} (rows : List (ResultRow α)) :
    List (ResultRow α) :=
  rows.mergeSort scoreDescLE

/-- A comparator ordering rows by strictly descending score and breaking
exact score ties by descending original index. -/
noncomputable def tieReversingLE {α : Type} (a b : ResultRow α) : Bool :=
  decide (b.similarity_score < a.similarity_score) ||
    (decide (a.similarity_score = b.similarity_score) && decide (b.idx ≤ a.idx))

/-- Another conforming behavior of the slow-path sort: descending on the
score column but with exact ties reversed, as an unstable kind is free to
do. -/
noncomputable def tieReversingSort {α : Type} (rows : List (ResultRow α)) :
    List (ResultRow α) :=
  rows.mergeSort tieReversingLE

/-- The rows of `result_df`: each candidate row, at its original index,
paired with its entry of the batch similarity vector. -/
noncomputable def result_rows {α : Type} (target : List ℝ) (cs : List (CandidateRow α)) :
    List (ResultRow α) :=
  ((cs.zip (batch_cosine_similarity target (cs.map CandidateRow.embedding_v1))).enum).map
    (fun p => { idx := p.1, meta := p.2.1.meta, similarity_score := p.2.2 })

/-- SimilarityCalculator.find_top_similar: return the empty frame for an
empty candidate frame; otherwise convert the `embedding_v1` column to a 2-D
array (ValueError on ragged rows), score all candidates against the target
(ValueError if the dimensions disagree with the target), attach the scores
as `similarity_score`, and return `nlargest(min(top_k, len(result_df)))` of
the rows with the embedding column dropped.  The `sortValues` parameter is
the implementation-defined unstable sort behind the nlargest slow path. -/
noncomputable def find_top_similar {α : Type}
    (sortValues : List (ResultRow α) → List (ResultRow α)) (target_embedding : List ℝ)
    (candidates_df : List (CandidateRow α)) (top_k : ℤ) :
    Except NumpyError (List (ResultRow α)) :=
  if candidates_df.length = 0 then .ok []
  else if ¬ sameLength (candidates_df.map CandidateRow.embedding_v1) then
    .error .inhomogeneousShape
  else if ((candidates_df.map CandidateRow.embedding_v1).headD []).length ≠
      target_embedding.length then
    .error .dotShapeMismatch
  else
    .ok (nlargest sortValues (min top_k (candidates_df.length : ℤ))
      (result_rows target_embedding candidates_df))

/-- The two shape conditions under which `find_top_similar` hits no numpy
error: the embedding rows all have one length, and (for a nonempty frame)
that length equals the length of the target vector. -/
def batchOK {α : Type} (target : List ℝ) (cs : List (CandidateRow α)) : Prop :=
  sameLength (cs.map CandidateRow.embedding_v1) = true ∧
    (cs.length ≠ 0 →
      ((cs.map CandidateRow.embedding_v1).headD []).length = target.length)

/-! Basic algebra of `dot` and `linalg_norm`. -/

theorem dot_comm (v w : List ℝ) : dot v w = dot w v := by
  unfold dot
  rw [List.zipWith_comm_of_comm (fun a b => a * b) mul_comm]

theorem dot_nil_left (w : List ℝ) : dot [] w = 0 := by simp [dot]

theorem dot_cons_cons (x y : ℝ) (v w : List ℝ) :
    dot (x :: v) (y :: w) = x * y + dot v w := by simp [dot]

theorem dot_self_nonneg (v : List ℝ) : 0 ≤ dot v v := by
  unfold dot
  rw [List.zipWith_same]
  apply List.sum_nonneg
  intro x hx
  obtain ⟨y, _, rfl⟩ := List.mem_map.mp hx
  exact mul_self_nonneg y

theorem linalg_norm_eq_zero_iff (v : List ℝ) : linalg_norm v = 0 ↔ dot v v = 0 := by
  unfold linalg_norm
  rw [Real.sqrt_eq_zero (dot_self_nonneg v)]

theorem dot_vecDivScalar (v w : List ℝ) (a b : ℝ) :
    dot (vecDivScalar v a) (vecDivScalar w b) = dot v w / (a * b) := by
  induction v generalizing w with
  | nil => simp [vecDivScalar, dot]
  | cons x v ih =>
    cases w with
    | nil => simp [vecDivScalar, dot]
    | cons y w =>
      simp only [vecDivScalar, List.map_cons] at ih ⊢
      rw [dot_cons_cons, dot_cons_cons, div_mul_div_comm, ih, div_add_div_same]

/-- C2 — SimilarityCalculator.cosine_similarity: whenever either input
vector has zero norm, the function returns the sentinel score 0.0 through
its explicit guard, so the division by the product of the norms is never
performed with a zero divisor. -/
theorem cosine_similarity_zero_norm_sentinel (vec1 vec2 : List ℝ)
    (h : linalg_norm vec1 = 0 ∨ linalg_norm vec2 = 0) :
    cosine_similarity vec1 vec2 = 0 := by
  unfold cosine_similarity
  simp only [if_pos h]

/-- Witness for C2: the zero vector `[0, 0]` has zero norm, and the pairwise
score of `[0, 0]` against `[3, 4]` is the sentinel 0.0. -/
theorem cosine_similarity_zero_norm_sentinel_witness :
    linalg_norm [0, 0] = 0 ∧ cosine_similarity [0, 0] [3, 4] = 0 := by
  have h0 : linalg_norm [0, 0] = 0 := by
    rw [linalg_norm_eq_zero_iff]
    norm_num [dot]
  exact ⟨h0, cosine_similarity_zero_norm_sentinel [0, 0] [3, 4] (Or.inl h0)⟩

/-- C10 — SimilarityCalculator.cosine_similarity is symmetric in its two
arguments: the dot product and the zero-norm guard are symmetric, and the
product of the norms commutes; this holds on the sentinel branch as well. -/
theorem cosine_similarity_comm (a b : List ℝ) :
    cosine_similarity a b = cosine_similarity b a := by
  unfold cosine_similarity
  simp only
  rw [dot_comm, mul_comm (linalg_norm a) (linalg_norm b)]
  by_cases h : linalg_norm a = 0 ∨ linalg_norm b = 0
  · rw [if_pos h, if_pos (Or.symm h)]
  · rw [if_neg h, if_neg (fun hc => h (Or.symm hc))]

/-- C8 — the vectorized scorer agrees with the scalar one entrywise: if the
`i`-th candidate row has the dimension of the query and both have nonzero norm,
the `i`-th entry of `batch_cosine_similarity` is `cosine_similarity` of the
query and that row. -/
theorem batch_cosine_similarity_entry (q : List ℝ) (cs : List (List ℝ)) (i : ℕ) (c : List ℝ)
    (hc : cs[i]? = some c) (_hlen : c.length = q.length)
    (hq : linalg_norm q ≠ 0) (hcn : linalg_norm c ≠ 0) :
    (batch_cosine_similarity q cs)[i]? = some (cosine_similarity q c) := by
  unfold batch_cosine_similarity
  simp only [List.map_map, List.getElem?_map, hc, Option.map_some']
  congr 1
  rw [Function.comp_apply, dot_vecDivScalar, dot_comm]
  unfold cosine_similarity
  simp only
  rw [if_neg (by push_neg; exact ⟨hq, hcn⟩), mul_comm (linalg_norm q) (linalg_norm c)]

/-- Witness for C8: query `[3, 4]`, single candidate `[4, 3]`, entry 0. -/
theorem batch_cosine_similarity_entry_witness :
    ([[4, 3]] : List (List ℝ))[0]? = some [4, 3] ∧
      ([4, 3] : List ℝ).length = ([3, 4] : List ℝ).length ∧
      linalg_norm [3, 4] ≠ 0 ∧ linalg_norm [4, 3] ≠ 0 ∧
      (batch_cosine_similarity [3, 4] [[4, 3]])[0]? = some (cosine_similarity [3, 4] [4, 3]) := by
  have hq : linalg_norm [(3 : ℝ), 4] ≠ 0 := by
    unfold linalg_norm
    rw [Real.sqrt_ne_zero']
    norm_num [dot]
  have hc : linalg_norm [(4 : ℝ), 3] ≠ 0 := by
    unfold linalg_norm
    rw [Real.sqrt_ne_zero']
    norm_num [dot]
  exact ⟨rfl, rfl, hq, hc,
    batch_cosine_similarity_entry [3, 4] [[4, 3]] 0 [4, 3] rfl rfl hq hc⟩

/-! Inversion and normal form of `find_top_similar`. -/

theorem result_rows_nil {α : Type} (target : List ℝ) :
    result_rows (α := α) target [] = [] := by
  simp [result_rows]

theorem find_top_similar_nil {α : Type}
    (sortValues : List (ResultRow α) → List (ResultRow α)) (target : List ℝ) (k : ℤ) :
    find_top_similar sortValues target [] k = .ok [] := by
  unfold find_top_similar
  rfl

theorem find_top_similar_eq_ok {α : Type}
    (sortValues : List (ResultRow α) → List (ResultRow α)) (target : List ℝ)
    (cs : List (CandidateRow α)) (k : ℤ) (hok : batchOK target cs) (hn : cs.length ≠ 0) :
    find_top_similar sortValues target cs k =
      .ok (nlargest sortValues (min k (cs.length : ℤ)) (result_rows target cs)) := by
  obtain ⟨hs, hd⟩ := hok
  unfold find_top_similar
  rw [if_neg hn, if_neg (by simp [hs]), if_neg (by simpa using hd hn)]

theorem find_top_similar_ok_inv {α : Type}
    {sortValues : List (ResultRow α) → List (ResultRow α)} {target : List ℝ}
    {cs : List (CandidateRow α)} {k : ℤ} {out : List (ResultRow α)}
    (h : find_top_similar sortValues target cs k = .ok out) :
    out = [] ∨
      out = nlargest sortValues (min k (cs.length : ℤ)) (result_rows target cs) := by
  unfold find_top_similar at h
  by_cases hn : cs.length = 0
  · rw [if_pos hn] at h
    left
    simpa using h.symm
  · right
    rw [if_neg hn] at h
    by_cases hs : sameLength (cs.map CandidateRow.embedding_v1)
    · rw [if_neg (by simp [hs])] at h
      by_cases hd : ((cs.map CandidateRow.embedding_v1).headD []).length =
          target.length
      · rw [if_neg (by simpa using hd)] at h
        exact (Except.ok.injEq _ _ ▸ h).symm
      · rw [if_pos (by simpa using hd)] at h
        exact absurd h (by simp)
    · rw [if_pos (by simpa using hs)] at h
      exact absurd h (by simp)

/-! Structure of the score column and the row indices. -/

theorem batch_cosine_similarity_length (t : List ℝ) (vs : List (List ℝ)) :
    (batch_cosine_similarity t vs).length = vs.length := by
  simp [batch_cosine_similarity]

theorem result_rows_length {α : Type} (t : List ℝ) (cs : List (CandidateRow α)) :
    (result_rows t cs).length = cs.length := by
  simp [result_rows, batch_cosine_similarity_length]

theorem result_rows_getElem_idx {α : Type} (t : List ℝ) (cs : List (CandidateRow α))
    (i : ℕ) (h : i < (result_rows t cs).length) :
    ((result_rows t cs)[i]).idx = i := by
  simp only [result_rows, List.getElem_map, List.getElem_enum]

theorem result_rows_map_idx {α : Type} (t : List ℝ) (cs : List (CandidateRow α)) :
    (result_rows t cs).map ResultRow.idx = List.range cs.length := by
  apply List.ext_getElem
  · simp [result_rows_length]
  · intro i h1 h2
    simp only [List.getElem_map, List.getElem_range]
    exact result_rows_getElem_idx t cs i (by simpa using h1)

theorem result_rows_nodup {α : Type} (t : List ℝ) (cs : List (CandidateRow α)) :
    (result_rows t cs).Nodup := by
  apply List.Nodup.of_map ResultRow.idx
  rw [result_rows_map_idx]
  exact List.nodup_range _

theorem mem_result_rows_getElem {α : Type} {t : List ℝ} {cs : List (CandidateRow α)}
    {r : ResultRow α} (h : r ∈ result_rows t cs) :
    ∃ hlt : r.idx < (result_rows t cs).length, (result_rows t cs)[r.idx] = r := by
  obtain ⟨i, hi, hr⟩ := List.mem_iff_getElem.mp h
  have : r.idx = i := by rw [← hr, result_rows_getElem_idx]
  subst this
  exact ⟨hi, hr⟩

/-! The descending comparator is transitive and total, so the mergesort in
`nlargest` is sorted and stable. -/

theorem scoreDescLE_trans {α : Type} :
    ∀ (a b c : ResultRow α), scoreDescLE a b → scoreDescLE b c → scoreDescLE a c := by
  intro a b c h1 h2
  simp only [scoreDescLE, decide_eq_true_eq] at h1 h2 ⊢
  exact le_trans h2 h1

theorem scoreDescLE_total {α : Type} :
    ∀ (a b : ResultRow α), scoreDescLE a b || scoreDescLE b a := by
  intro a b
  simp only [scoreDescLE, Bool.or_eq_true, decide_eq_true_eq]
  exact le_total _ _

theorem stableSortValues_conforms {α : Type} :
    SortValuesDesc (stableSortValues (α := α)) := by
  constructor
  · intro rows
    exact List.mergeSort_perm rows scoreDescLE
  · intro rows
    exact (List.sorted_mergeSort scoreDescLE_trans scoreDescLE_total rows).imp
      (fun hab => by simpa [scoreDescLE] using hab)

theorem tieReversingLE_trans {α : Type} :
    ∀ (a b c : ResultRow α), tieReversingLE a b → tieReversingLE b c → tieReversingLE a c := by
  intro a b c h1 h2
  simp only [tieReversingLE, Bool.or_eq_true, Bool.and_eq_true, decide_eq_true_eq] at h1 h2 ⊢
  rcases h1 with h1 | ⟨h1e, h1i⟩ <;> rcases h2 with h2 | ⟨h2e, h2i⟩
  · exact Or.inl (lt_trans h2 h1)
  · exact Or.inl (h2e ▸ h1)
  · exact Or.inl (by rw [h1e]; exact h2)
  · exact Or.inr ⟨h1e.trans h2e, le_trans h2i h1i⟩

theorem tieReversingLE_total {α : Type} :
    ∀ (a b : ResultRow α), tieReversingLE a b || tieReversingLE b a := by
  intro a b
  simp only [tieReversingLE, Bool.or_eq_true, Bool.and_eq_true, decide_eq_true_eq]
  rcases lt_trichotomy a.similarity_score b.similarity_score with h | h | h
  · exact Or.inr (Or.inl h)
  · rcases le_total a.idx b.idx with hi | hi
    · exact Or.inr (Or.inr ⟨h.symm, hi⟩)
    · exact Or.inl (Or.inr ⟨h, hi⟩)
  · exact Or.inl (Or.inl h)

theorem tieReversingSort_conforms {α : Type} :
    SortValuesDesc (tieReversingSort (α := α)) := by
  constructor
  · intro rows
    exact List.mergeSort_perm rows tieReversingLE
  · intro rows
    refine (List.sorted_mergeSort tieReversingLE_trans tieReversingLE_total rows).imp ?_
    intro a b hab
    simp only [tieReversingLE, Bool.or_eq_true, Bool.and_eq_true, decide_eq_true_eq] at hab
    rcases hab with h | ⟨he, _⟩
    · exact le_of_lt h
    · exact le_of_eq he.symm

theorem perm_pair_eq {α : Type} {l : List α} {x y : α} (h : l.Perm [x, y]) :
    l = [x, y] ∨ l = [y, x] := by
  rcases l with _ | ⟨a, _ | ⟨b, _ | ⟨c, rest⟩⟩⟩
  · have := h.length_eq
    simp at this
  · have := h.length_eq
    simp at this
  · have hmem : a ∈ [x, y] := h.subset (by simp)
    simp only [List.mem_cons, List.mem_singleton, List.not_mem_nil, or_false] at hmem
    rcases hmem with ha | ha
    · subst ha
      left
      have h2 : ([b] : List α).Perm [y] := (List.perm_cons a).mp h
      have hb : b = y := by simpa using h2
      rw [hb]
    · subst ha
      right
      have hswap : ([x, a] : List α).Perm [a, x] := List.Perm.swap a x []
      have h2 : ([b] : List α).Perm [x] := (List.perm_cons a).mp (h.trans hswap)
      have hb : b = x := by simpa using h2
      rw [hb]
  · have := h.length_eq
    simp at this

/-! Positions of a two-element sublist. -/

theorem pair_sublist_positions {α : Type} {l : List α} {a b : α} (h : List.Sublist [a, b] l) :
    ∃ i j : Fin l.length, (i : ℕ) < (j : ℕ) ∧ l.get i = a ∧ l.get j = b := by
  obtain ⟨is, heq, hpw⟩ := List.sublist_eq_map_get h
  rcases is with _ | ⟨i, _ | ⟨j, _ | ⟨m, rest⟩⟩⟩
  · simp at heq
  · simp at heq
  · simp only [List.map_cons, List.map_nil, List.cons.injEq, and_true] at heq
    obtain ⟨ha, hb⟩ := heq
    refine ⟨i, j, ?_, ha.symm, hb.symm⟩
    have := (List.pairwise_cons.mp hpw).1 j (by simp)
    exact this
  · simp at heq

theorem pair_sublist_of_positions {α : Type} {l : List α} (i j : Fin l.length)
    (hij : (i : ℕ) < (j : ℕ)) : List.Sublist [l.get i, l.get j] l := by
  have : [l.get i, l.get j] = List.map l.get [i, j] := by simp
  rw [this]
  exact List.map_get_sublist (by simpa using hij)

theorem pair_sublist_asymm {α : Type} {l : List α} (hnd : l.Nodup) {a b : α}
    (h1 : List.Sublist [a, b] l) (h2 : List.Sublist [b, a] l) : False := by
  have hinj := List.nodup_iff_injective_get.mp hnd
  obtain ⟨i, j, hij, hia, hjb⟩ := pair_sublist_positions h1
  obtain ⟨p, q, hpq, hpb, hqa⟩ := pair_sublist_positions h2
  have hiq : i = q := hinj (by rw [hia, hqa])
  have hjp : j = p := hinj (by rw [hjb, hpb])
  subst hiq hjp
  omega

/-- Every successfully returned frame is sorted descending on the score
column: a prefix of the stable mergesort on the fast path, a prefix of the
conforming slow-path sort otherwise. -/
theorem ok_sorted_desc {α : Type} {sortValues : List (ResultRow α) → List (ResultRow α)}
    (hsv : SortValuesDesc sortValues) {t : List ℝ} {cs : List (CandidateRow α)} {k : ℤ}
    {out : List (ResultRow α)} (h : find_top_similar sortValues t cs k = .ok out) :
    out.Pairwise (fun a b => b.similarity_score ≤ a.similarity_score) := by
  rcases find_top_similar_ok_inv h with rfl | hout
  · exact List.Pairwise.nil
  · rw [hout]
    unfold nlargest
    by_cases h0 : min k (cs.length : ℤ) ≤ 0
    · rw [if_pos h0]
      exact List.Pairwise.nil
    · rw [if_neg h0]
      by_cases h1 : min k (cs.length : ℤ) < ((result_rows t cs).length : ℤ)
      · rw [if_pos h1]
        apply List.Pairwise.sublist (List.take_sublist _ _)
        exact (List.sorted_mergeSort scoreDescLE_trans scoreDescLE_total
          (result_rows t cs)).imp (fun hab => by simpa [scoreDescLE] using hab)
      · rw [if_neg h1]
        exact List.Pairwise.sublist (List.take_sublist _ _) (hsv.2 (result_rows t cs))

/-- C5 — for every sort behavior meeting the library guarantees of the
nlargest slow path, every frame returned by find_top_similar is in
non-increasing similarity_score order: for positions i < j the score at i
is at least the score at j. -/
theorem find_top_similar_sorted_desc {α : Type}
    (sortValues : List (ResultRow α) → List (ResultRow α))
    (hsv : SortValuesDesc sortValues) (t : List ℝ) (cs : List (CandidateRow α))
    (k : ℤ) (out : List (ResultRow α)) (h : find_top_similar sortValues t cs k = .ok out) :
    out.Pairwise (fun a b => b.similarity_score ≤ a.similarity_score) :=
  ok_sorted_desc hsv h

/-- C3 corrected — the stable-tie guarantee holds exactly on the pandas
fast path: whenever top_k is smaller than the number of candidates,
nlargest selects through the stable descending mergesort, so any two rows
of the returned frame carrying exactly equal scores appear in the order of
their original indices in candidates_df; this holds for every slow-path
sort behavior since that path is not reached.  (For top_k at least the
number of candidates, nlargest instead sorts with an unstable kind and no
tie-order guarantee exists — see the counterexample below.) -/
theorem find_top_similar_stable_ties {α : Type}
    (sortValues : List (ResultRow α) → List (ResultRow α)) (t : List ℝ)
    (cs : List (CandidateRow α)) (k : ℤ) (out : List (ResultRow α))
    (hk : k < (cs.length : ℤ)) (h : find_top_similar sortValues t cs k = .ok out) :
    out.Pairwise (fun a b =>
      a.similarity_score = b.similarity_score → a.idx < b.idx) := by
  rcases find_top_similar_ok_inv h with rfl | hout
  · exact List.Pairwise.nil
  · rw [hout]
    unfold nlargest
    by_cases h0 : min k (cs.length : ℤ) ≤ 0
    · rw [if_pos h0]
      exact List.Pairwise.nil
    · rw [if_neg h0, if_pos (show min k (cs.length : ℤ) <
        ((result_rows t cs).length : ℤ) by rw [result_rows_length]; omega)]
      rw [List.pairwise_iff_forall_sublist]
      intro a b hsub heq
      have hsubS : List.Sublist [a, b]
          ((result_rows t cs).mergeSort scoreDescLE) :=
        hsub.trans (List.take_sublist _ _)
      have hSnodup : ((result_rows t cs).mergeSort scoreDescLE).Nodup :=
        (List.mergeSort_perm (result_rows t cs) scoreDescLE).symm.nodup (result_rows_nodup t cs)
      have haR : a ∈ result_rows t cs := by
        have : a ∈ (result_rows t cs).mergeSort scoreDescLE := hsubS.subset (by simp)
        exact List.mem_mergeSort.mp this
      have hbR : b ∈ result_rows t cs := by
        have : b ∈ (result_rows t cs).mergeSort scoreDescLE := hsubS.subset (by simp)
        exact List.mem_mergeSort.mp this
      obtain ⟨hla, hga⟩ := mem_result_rows_getElem haR
      obtain ⟨hlb, hgb⟩ := mem_result_rows_getElem hbR
      have hne : a ≠ b := by
        intro hab
        subst hab
        have hnd : ([a, a] : List (ResultRow α)).Nodup := List.Nodup.sublist hsubS hSnodup
        simp at hnd
      have hidxne : a.idx ≠ b.idx := by
        intro hidx
        apply hne
        rw [← hga, ← hgb]
        simp only [hidx]
      rcases lt_or_gt_of_ne hidxne with hlt | hgt
      · exact hlt
      · exfalso
        have hpairR : List.Sublist [b, a] (result_rows t cs) := by
          have hs := pair_sublist_of_positions (l := result_rows t cs)
            ⟨b.idx, hlb⟩ ⟨a.idx, hla⟩ (by simpa using hgt)
          simpa [List.get_eq_getElem, hga, hgb] using hs
        have hba : scoreDescLE b a = true := by
          simp only [scoreDescLE, decide_eq_true_eq]
          exact le_of_eq heq
        have hpairS : List.Sublist [b, a]
            ((result_rows t cs).mergeSort scoreDescLE) :=
          List.pair_sublist_mergeSort scoreDescLE_trans scoreDescLE_total hba hpairR
        exact pair_sublist_asymm hSnodup hsubS hpairS

/-- C4 — for every sort behavior meeting the library guarantees of the
nlargest slow path, with shape-compatible inputs the call succeeds and the
returned frame has exactly min(top_k, number of candidates) rows when
top_k ≥ 0, and is empty (with no error) when top_k ≤ 0 or the candidate
frame is empty. -/
theorem find_top_similar_length {α : Type}
    (sortValues : List (ResultRow α) → List (ResultRow α))
    (hsv : SortValuesDesc sortValues) (t : List ℝ) (cs : List (CandidateRow α))
    (k : ℤ) (hok : batchOK t cs) :
    ∃ out, find_top_similar sortValues t cs k = .ok out ∧
      (0 ≤ k → out.length = min k.toNat cs.length) ∧
      ((k ≤ 0 ∨ cs = []) → out = []) := by
  by_cases hn : cs.length = 0
  · obtain rfl : cs = [] := List.length_eq_zero.mp hn
    refine ⟨[], find_top_similar_nil sortValues t k, fun _ => by simp, fun _ => rfl⟩
  · refine ⟨_, find_top_similar_eq_ok sortValues t cs k hok hn, ?_, ?_⟩
    · intro hk
      unfold nlargest
      by_cases h0 : min k (cs.length : ℤ) ≤ 0
      · rw [if_pos h0]
        simp only [List.length_nil]
        omega
      · rw [if_neg h0]
        by_cases h1 : min k (cs.length : ℤ) < ((result_rows t cs).length : ℤ)
        · rw [if_pos h1, List.length_take, List.length_mergeSort, result_rows_length]
          omega
        · rw [if_neg h1, List.length_take, (hsv.1 (result_rows t cs)).length_eq,
            result_rows_length]
          rw [result_rows_length] at h1
          omega
    · intro hk0
      rcases hk0 with hk0 | rfl
      · unfold nlargest
        rw [if_pos (by omega)]
      · simp at hn

/-- C6 — enumerating a returned frame from 1 assigns each record the rank
equal to its 1-based position: the rank sequence is exactly 1, ..., len;
two enumerated records with equal scores but different positions never
share a rank number; and the rank order refines the score order. -/
theorem find_top_similar_ranks {α : Type}
    (sortValues : List (ResultRow α) → List (ResultRow α))
    (hsv : SortValuesDesc sortValues) (t : List ℝ) (cs : List (CandidateRow α))
    (k : ℤ) (out : List (ResultRow α)) (h : find_top_similar sortValues t cs k = .ok out) :
    (out.enumFrom 1).map Prod.fst = List.range' 1 out.length ∧
      (∀ p ∈ out.enumFrom 1, ∀ q ∈ out.enumFrom 1,
        p.2.similarity_score = q.2.similarity_score → p.1 = q.1 → p = q) ∧
      (∀ p ∈ out.enumFrom 1, ∀ q ∈ out.enumFrom 1,
        p.1 < q.1 → q.2.similarity_score ≤ p.2.similarity_score) := by
  have hfst : (out.enumFrom 1).map Prod.fst = List.range' 1 out.length :=
    List.enumFrom_map_fst 1 out
  refine ⟨hfst, ?_, ?_⟩
  · intro p hp q hq _ hrank
    have hnd : ((out.enumFrom 1).map Prod.fst).Nodup := by
      rw [hfst]
      exact List.nodup_range' 1 out.length
    exact List.inj_on_of_nodup_map hnd hp hq hrank
  · intro p hp q hq hlt
    obtain ⟨i, hi, hpi⟩ := List.mem_iff_getElem.mp hp
    obtain ⟨j, hj, hqj⟩ := List.mem_iff_getElem.mp hq
    rw [List.getElem_enumFrom] at hpi hqj
    have hilen : i < out.length := by
      have := hi
      simpa [List.enumFrom_length] using this
    have hjlen : j < out.length := by
      have := hj
      simpa [List.enumFrom_length] using this
    have hij : i < j := by
      have hp1 : p.1 = 1 + i := by rw [← hpi]
      have hq1 : q.1 = 1 + j := by rw [← hqj]
      omega
    have hsorted := ok_sorted_desc hsv h
    rw [List.pairwise_iff_getElem] at hsorted
    have hscore := hsorted i j hilen hjlen hij
    have hp2 : p.2 = out[i] := by rw [← hpi]
    have hq2 : q.2 = out[j] := by rw [← hqj]
    rw [hp2, hq2]
    exact hscore

/-- C9 — find_top_similar is a pure function of the query vector, the
candidate frame and top_k: two invocations on identical inputs return
identical results, tie ordering included; the embedding has no state that
could vary between the calls. -/
theorem find_top_similar_deterministic {α : Type}
    (sortValues : List (ResultRow α) → List (ResultRow α)) (t : List ℝ)
    (cs : List (CandidateRow α)) (k : ℤ) (r1 r2 : Except NumpyError (List (ResultRow α)))
    (h1 : find_top_similar sortValues t cs k = r1)
    (h2 : find_top_similar sortValues t cs k = r2) :
    r1 = r2 := by
  rw [← h1, ← h2]

/-- Counterexample for C1 as stated: the query `[0, 0]` is zero-norm, yet
find_top_similar does not fail — there is no query validation anywhere in
the call, so it returns a ranked frame rather than an InvalidQueryVector
error (the scalar guard exists only in cosine_similarity, which the batch
path never calls). -/
theorem find_top_similar_zero_query_no_error :
    linalg_norm [0, 0] = 0 ∧
      (find_top_similar stableSortValues [0, 0] [⟨"A", [3, 4]⟩] 5).isOk = true := by
  constructor
  · rw [linalg_norm_eq_zero_iff]
    norm_num [dot]
  · rw [find_top_similar_eq_ok stableSortValues [0, 0] [⟨"A", [3, 4]⟩] 5
      ⟨rfl, fun _ => rfl⟩ (by simp)]
    rfl

/-- C1 corrected — find_top_similar performs no validation of the query
vector: for any dimensionally consistent candidate frame, a call whose
query has zero norm (missing, empty or all-zero) still succeeds, scoring
every candidate with the unguarded division by the zero query norm. -/
theorem find_top_similar_zero_query_ok {α : Type}
    (sortValues : List (ResultRow α) → List (ResultRow α)) (t : List ℝ)
    (cs : List (CandidateRow α)) (k : ℤ) (hok : batchOK t cs)
    (_hq : linalg_norm t = 0) :
    (find_top_similar sortValues t cs k).isOk = true := by
  by_cases hn : cs.length = 0
  · obtain rfl : cs = [] := List.length_eq_zero.mp hn
    rw [find_top_similar_nil]
    rfl
  · rw [find_top_similar_eq_ok sortValues t cs k hok hn]
    rfl

/-- Witness for the corrected C1: the all-zero query against one candidate. -/
theorem find_top_similar_zero_query_ok_witness :
    batchOK [0, 0] [⟨"B", [3, 4]⟩] ∧ linalg_norm [0, 0] = 0 ∧
      (find_top_similar stableSortValues [0, 0] [⟨"B", [3, 4]⟩] 7).isOk = true := by
  have hok : batchOK [0, 0] [⟨"B", [3, 4]⟩] := ⟨rfl, fun _ => rfl⟩
  have hq : linalg_norm [(0 : ℝ), 0] = 0 := by
    rw [linalg_norm_eq_zero_iff]
    norm_num [dot]
  exact ⟨hok, hq,
    find_top_similar_zero_query_ok stableSortValues [0, 0] [⟨"B", [3, 4]⟩] 7 hok hq⟩

/-- Counterexample for C7 as stated: a batch whose second candidate has a
vector length disagreeing with the first is not recovered per-candidate —
the whole call aborts with the inhomogeneous-array error and the remaining
valid candidate is never ranked. -/
theorem find_top_similar_ragged_counterexample :
    find_top_similar stableSortValues [1, 0] [⟨"A", [1, 0]⟩, ⟨"B", [1, 0, 0]⟩] 5 =
      .error .inhomogeneousShape := by
  rfl

/-- C7 corrected — a candidate vector whose length disagrees with the
first row of the batch is never rejected locally: converting the embedding
column to a 2-D array raises, the whole ranking call fails with that
error, and no candidates are scored or ranked. -/
theorem find_top_similar_ragged_error {α : Type}
    (sortValues : List (ResultRow α) → List (ResultRow α)) (t : List ℝ)
    (cs : List (CandidateRow α)) (k : ℤ)
    (hragged : sameLength (cs.map CandidateRow.embedding_v1) = false) :
    find_top_similar sortValues t cs k = .error .inhomogeneousShape := by
  unfold find_top_similar
  have hn : cs.length ≠ 0 := by
    intro h0
    rw [List.length_eq_zero.mp h0] at hragged
    simp [sameLength] at hragged
  rw [if_neg hn, if_pos (by simp [hragged])]

/-- Witness for the corrected C7: a two-candidate batch with row lengths 2
and 3 makes the whole call return the inhomogeneous-array error. -/
theorem find_top_similar_ragged_error_witness :
    sameLength ([⟨"A", [1, 0]⟩, ⟨"B", [1, 0, 0]⟩].map
        (CandidateRow.embedding_v1 (α := String))) = false ∧
      find_top_similar stableSortValues [9] [⟨"A", [1, 0]⟩, ⟨"B", [1, 0, 0]⟩] 3 =
        .error .inhomogeneousShape :=
  ⟨rfl, find_top_similar_ragged_error stableSortValues [9]
    [⟨"A", [1, 0]⟩, ⟨"B", [1, 0, 0]⟩] 3 rfl⟩

/-! Concrete evaluations used by the witnesses and the C3 counterexample:
query `[1, 0]` with unit-norm candidates, so every score is rational and
the frames evaluate. -/

theorem nlargest_fast {α : Type} (sortValues : List (ResultRow α) → List (ResultRow α))
    (n : ℤ) (rows : List (ResultRow α)) (h0 : ¬ n ≤ 0) (h1 : n < (rows.length : ℤ)) :
    nlargest sortValues n rows = (rows.mergeSort scoreDescLE).take n.toNat := by
  unfold nlargest
  rw [if_neg h0, if_pos h1]

theorem nlargest_slow {α : Type} (sortValues : List (ResultRow α) → List (ResultRow α))
    (n : ℤ) (rows : List (ResultRow α)) (h0 : ¬ n ≤ 0) (h1 : ¬ n < (rows.length : ℤ)) :
    nlargest sortValues n rows = (sortValues rows).take n.toNat := by
  unfold nlargest
  rw [if_neg h0, if_neg h1]

theorem eval_rows_AB : result_rows [1, 0] [⟨"A", [1, 0]⟩, ⟨"B", [0, 1]⟩] =
    [⟨0, "A", 1⟩, ⟨1, "B", 0⟩] := by
  unfold result_rows batch_cosine_similarity vecDivScalar linalg_norm dot
  norm_num [Real.sqrt_one, List.zip, List.zipWith, List.enum, List.enumFrom]

theorem eval_rows_tie : result_rows [1, 0] [⟨"A", [1, 0]⟩, ⟨"B", [1, 0]⟩] =
    [⟨0, "A", 1⟩, ⟨1, "B", 1⟩] := by
  unfold result_rows batch_cosine_similarity vecDivScalar linalg_norm dot
  norm_num [Real.sqrt_one, List.zip, List.zipWith, List.enum, List.enumFrom]

theorem eval_rows_tie3 :
    result_rows [1, 0] [⟨"A", [1, 0]⟩, ⟨"B", [1, 0]⟩, ⟨"C", [1, 0]⟩] =
      [⟨0, "A", 1⟩, ⟨1, "B", 1⟩, ⟨2, "C", 1⟩] := by
  unfold result_rows batch_cosine_similarity vecDivScalar linalg_norm dot
  norm_num [Real.sqrt_one, List.zip, List.zipWith, List.enum, List.enumFrom]

theorem sorted_AB : List.Pairwise (fun a b => scoreDescLE a b = true)
    ([⟨0, "A", 1⟩, ⟨1, "B", 0⟩] : List (ResultRow String)) := by
  simp [List.pairwise_cons, scoreDescLE]

theorem sorted_tie3 : List.Pairwise (fun a b => scoreDescLE a b = true)
    ([⟨0, "A", 1⟩, ⟨1, "B", 1⟩, ⟨2, "C", 1⟩] : List (ResultRow String)) := by
  simp [List.pairwise_cons, scoreDescLE]

theorem tieReversingSort_tie_pair :
    tieReversingSort [⟨0, "A", 1⟩, ⟨1, "B", 1⟩] = [⟨1, "B", 1⟩, ⟨0, "A", 1⟩] := by
  have hperm := List.mergeSort_perm
    [(⟨0, "A", 1⟩ : ResultRow String), ⟨1, "B", 1⟩] tieReversingLE
  have hsorted := List.sorted_mergeSort tieReversingLE_trans tieReversingLE_total
    [(⟨0, "A", 1⟩ : ResultRow String), ⟨1, "B", 1⟩]
  unfold tieReversingSort
  rcases perm_pair_eq hperm with hcase | hcase
  · rw [hcase] at hsorted
    have hle := (List.pairwise_cons.mp hsorted).1 _ (List.mem_singleton.mpr rfl)
    simp only [tieReversingLE, Bool.or_eq_true, Bool.and_eq_true,
      decide_eq_true_eq] at hle
    norm_num at hle
  · exact hcase

theorem eval_find_AB :
    find_top_similar stableSortValues [1, 0] [⟨"A", [1, 0]⟩, ⟨"B", [0, 1]⟩] 5 =
      .ok [⟨0, "A", 1⟩, ⟨1, "B", 0⟩] := by
  rw [find_top_similar_eq_ok stableSortValues [1, 0] [⟨"A", [1, 0]⟩, ⟨"B", [0, 1]⟩] 5
      ⟨rfl, fun _ => rfl⟩ (by simp), eval_rows_AB,
    nlargest_slow _ _ _ (by norm_num) (by norm_num)]
  unfold stableSortValues
  rw [List.mergeSort_of_sorted sorted_AB]
  rfl

theorem eval_find_tie_reversed :
    find_top_similar tieReversingSort [1, 0] [⟨"A", [1, 0]⟩, ⟨"B", [1, 0]⟩] 5 =
      .ok [⟨1, "B", 1⟩, ⟨0, "A", 1⟩] := by
  rw [find_top_similar_eq_ok tieReversingSort [1, 0] [⟨"A", [1, 0]⟩, ⟨"B", [1, 0]⟩] 5
      ⟨rfl, fun _ => rfl⟩ (by simp), eval_rows_tie,
    nlargest_slow _ _ _ (by norm_num) (by norm_num), tieReversingSort_tie_pair]
  rfl

theorem eval_find_tie3 :
    find_top_similar tieReversingSort [1, 0]
        [⟨"A", [1, 0]⟩, ⟨"B", [1, 0]⟩, ⟨"C", [1, 0]⟩] 2 =
      .ok [⟨0, "A", 1⟩, ⟨1, "B", 1⟩] := by
  rw [find_top_similar_eq_ok tieReversingSort [1, 0]
      [⟨"A", [1, 0]⟩, ⟨"B", [1, 0]⟩, ⟨"C", [1, 0]⟩] 2
      ⟨rfl, fun _ => rfl⟩ (by simp), eval_rows_tie3,
    nlargest_fast _ _ _ (by norm_num) (by norm_num),
    List.mergeSort_of_sorted sorted_tie3]
  rfl

/-- Counterexample for C3 as stated: when top_k is at least the number of
candidates, nlargest reaches its slow path and sorts with the default
unstable kind, for which pandas guarantees only a descending rearrangement.
tieReversingSort is a conforming behavior of that sort, and under it two
candidates with identical vectors — hence exactly equal scores — come back
in reversed input order, so the code gives no universal stable-tie
guarantee. -/
theorem find_top_similar_ties_not_guaranteed :
    SortValuesDesc (tieReversingSort (α := String)) ∧
      find_top_similar tieReversingSort [1, 0] [⟨"A", [1, 0]⟩, ⟨"B", [1, 0]⟩] 5 =
        .ok [⟨1, "B", 1⟩, ⟨0, "A", 1⟩] ∧
      ¬ List.Pairwise (fun a b : ResultRow String =>
          a.similarity_score = b.similarity_score → a.idx < b.idx)
        [⟨1, "B", 1⟩, ⟨0, "A", 1⟩] := by
  refine ⟨tieReversingSort_conforms, eval_find_tie_reversed, ?_⟩
  intro hpw
  have h1 := (List.pairwise_cons.mp hpw).1 _ (List.mem_singleton.mpr rfl) rfl
  simp at h1

/-- Witness for the corrected C3: three candidates with identical vectors
and top_k = 2 < 3 exercise the stable fast path, even under the
tie-reversing slow-path behavior, and keep their input order. -/
theorem find_top_similar_stable_ties_witness :
    (2 : ℤ) < (([⟨"A", [1, 0]⟩, ⟨"B", [1, 0]⟩, ⟨"C", [1, 0]⟩] :
        List (CandidateRow String)).length : ℤ) ∧
      find_top_similar tieReversingSort [1, 0]
          [⟨"A", [1, 0]⟩, ⟨"B", [1, 0]⟩, ⟨"C", [1, 0]⟩] 2 =
        .ok [⟨0, "A", 1⟩, ⟨1, "B", 1⟩] ∧
      List.Pairwise (fun a b : ResultRow String =>
        a.similarity_score = b.similarity_score → a.idx < b.idx)
        [⟨0, "A", 1⟩, ⟨1, "B", 1⟩] :=
  ⟨by norm_num, eval_find_tie3,
    find_top_similar_stable_ties tieReversingSort [1, 0]
      [⟨"A", [1, 0]⟩, ⟨"B", [1, 0]⟩, ⟨"C", [1, 0]⟩] 2 [⟨0, "A", 1⟩, ⟨1, "B", 1⟩]
      (by norm_num) eval_find_tie3⟩

/-- Witness for C4: the stable conforming slow-path behavior, a well-shaped
two-candidate batch and top_k = 1. -/
theorem find_top_similar_length_witness :
    SortValuesDesc (stableSortValues (α := String)) ∧
      batchOK [1, 0] [⟨"A", [1, 0]⟩, ⟨"B", [0, 1]⟩] ∧
      ∃ out, find_top_similar stableSortValues [1, 0]
          [⟨"A", [1, 0]⟩, ⟨"B", [0, 1]⟩] 1 = .ok out ∧
        (0 ≤ (1 : ℤ) → out.length =
          min (1 : ℤ).toNat ([⟨"A", [1, 0]⟩, ⟨"B", [0, 1]⟩] :
            List (CandidateRow String)).length) ∧
        (((1 : ℤ) ≤ 0 ∨ ([⟨"A", [1, 0]⟩, ⟨"B", [0, 1]⟩] :
            List (CandidateRow String)) = []) → out = []) :=
  ⟨stableSortValues_conforms, ⟨rfl, fun _ => rfl⟩,
    find_top_similar_length stableSortValues stableSortValues_conforms [1, 0]
      [⟨"A", [1, 0]⟩, ⟨"B", [0, 1]⟩] 1 ⟨rfl, fun _ => rfl⟩⟩

/-- Witness for C5: under the stable conforming slow-path behavior, the
returned frame for the two-candidate scenario has its scores in
non-increasing order. -/
theorem find_top_similar_sorted_desc_witness :
    SortValuesDesc (stableSortValues (α := String)) ∧
      find_top_similar stableSortValues [1, 0] [⟨"A", [1, 0]⟩, ⟨"B", [0, 1]⟩] 5 =
        .ok [⟨0, "A", 1⟩, ⟨1, "B", 0⟩] ∧
      List.Pairwise (fun a b : ResultRow String =>
        b.similarity_score ≤ a.similarity_score) [⟨0, "A", 1⟩, ⟨1, "B", 0⟩] :=
  ⟨stableSortValues_conforms, eval_find_AB,
    find_top_similar_sorted_desc stableSortValues stableSortValues_conforms [1, 0]
      [⟨"A", [1, 0]⟩, ⟨"B", [0, 1]⟩] 5 [⟨0, "A", 1⟩, ⟨1, "B", 0⟩] eval_find_AB⟩

/-- Witness for C6: rank enumeration of the concrete two-row frame under
the stable conforming slow-path behavior. -/
theorem find_top_similar_ranks_witness :
    SortValuesDesc (stableSortValues (α := String)) ∧
      find_top_similar stableSortValues [1, 0] [⟨"A", [1, 0]⟩, ⟨"B", [0, 1]⟩] 5 =
        .ok [⟨0, "A", 1⟩, ⟨1, "B", 0⟩] ∧
      ((([⟨0, "A", 1⟩, ⟨1, "B", 0⟩] : List (ResultRow String)).enumFrom 1).map Prod.fst =
          List.range' 1 ([⟨0, "A", 1⟩, ⟨1, "B", 0⟩] : List (ResultRow String)).length ∧
        (∀ p ∈ ([⟨0, "A", 1⟩, ⟨1, "B", 0⟩] : List (ResultRow String)).enumFrom 1,
          ∀ q ∈ ([⟨0, "A", 1⟩, ⟨1, "B", 0⟩] : List (ResultRow String)).enumFrom 1,
          p.2.similarity_score = q.2.similarity_score → p.1 = q.1 → p = q) ∧
        (∀ p ∈ ([⟨0, "A", 1⟩, ⟨1, "B", 0⟩] : List (ResultRow String)).enumFrom 1,
          ∀ q ∈ ([⟨0, "A", 1⟩, ⟨1, "B", 0⟩] : List (ResultRow String)).enumFrom 1,
          p.1 < q.1 → q.2.similarity_score ≤ p.2.similarity_score)) :=
  ⟨stableSortValues_conforms, eval_find_AB,
    find_top_similar_ranks stableSortValues stableSortValues_conforms [1, 0]
      [⟨"A", [1, 0]⟩, ⟨"B", [0, 1]⟩] 5 [⟨0, "A", 1⟩, ⟨1, "B", 0⟩] eval_find_AB⟩

/-- Witness for C9: two invocations on the concrete scenario, both
evaluated, give the same frame. -/
theorem find_top_similar_deterministic_witness :
    (Except.ok [⟨0, "A", 1⟩, ⟨1, "B", 0⟩] :
        Except NumpyError (List (ResultRow String))) =
      .ok [⟨0, "A", 1⟩, ⟨1, "B", 0⟩] :=
  find_top_similar_deterministic stableSortValues [1, 0]
    [⟨"A", [1, 0]⟩, ⟨"B", [0, 1]⟩] 5 _ _ eval_find_AB eval_find_AB
